import Mathlib

/-!
Shallow embedding of the core of `cign` (a git working-directory status
scanner) and proofs about its specification claims.

Modules embedded:
* `src/git.rs` — `GitCheckResult` with `is_all_good`/`describe`, `check_repo`,
  `find_git_repos_recursive`;
* `src/custom.rs` — `CustomEntry` with `check`/`refresh` (working-directory
  save/restore modelled by explicit state passing);
* `src/dir.rs` — `get_expanded_dirs`;
* `src/main.rs` — `visit_all_repos` and the top-level scan exit status;
* `src/command.rs` — the fix/retry loop of `handle_fix`, and
  `handle_del` / `handle_del_custom`.

External effects (shell expansion, chdir, subprocess exit codes, repository
queries, prompts) are modelled as explicit environment records, and the
process working directory as threaded state.
-/

namespace Cign

/-- The `git2::RepositoryState` enum: one clean value and several
mid-operation values. -/
inductive RepositoryState where
  | Clean
  | Merge
  | Revert
  | RevertSequence
  | CherryPick
  | CherryPickSequence
  | Bisect
  | Rebase
  | RebaseInteractive
  | RebaseMerge
  | ApplyMailbox
  | ApplyMailboxOrRebase
  deriving DecidableEq, Repr

/-- Debug formatting of a `RepositoryState`, as the Rust debug formatter
prints the variant name. -/
def RepositoryState.debugStr : RepositoryState → String
  | .Clean => "Clean"
  | .Merge => "Merge"
  | .Revert => "Revert"
  | .RevertSequence => "RevertSequence"
  | .CherryPick => "CherryPick"
  | .CherryPickSequence => "CherryPickSequence"
  | .Bisect => "Bisect"
  | .Rebase => "Rebase"
  | .RebaseInteractive => "RebaseInteractive"
  | .RebaseMerge => "RebaseMerge"
  | .ApplyMailbox => "ApplyMailbox"
  | .ApplyMailboxOrRebase => "ApplyMailboxOrRebase"

/-- A `git2::Status` bitflag value attached to one working-tree entry.
Only the number of entries feeds the verdict, never the bits. -/
structure Status where
  bits : Nat
  deriving DecidableEq, Repr

/-- Struct `GitCheckResult` from `src/git.rs`. -/
structure GitCheckResult where
  state : RepositoryState
  statuses : List Status
  commits_ahead : Nat
  commits_behind : Nat
  deriving DecidableEq, Repr

/-- Function `GitCheckResult::is_all_good` from `src/git.rs` lines 23-28. -/
def GitCheckResult.is_all_good (r : GitCheckResult) : Bool :=
  r.state = RepositoryState.Clean
    && r.statuses.isEmpty
    && r.commits_ahead = 0
    && r.commits_behind = 0

/-- Function `GitCheckResult::describe` from `src/git.rs` lines 31-56: the facts are
pushed one by one onto a growing vector. -/
def GitCheckResult.describe (r : GitCheckResult) : List String :=
  if r.is_all_good then
    ["all good"]
  else
    let ret : List String := []
    let ret := if r.state ≠ RepositoryState.Clean then
        ret ++ ["unclean state " ++ r.state.debugStr]
      else ret
    let change_count := r.statuses.length
    let ret := if change_count > 0 then
        ret ++ [toString change_count ++ " uncommitted change(s)"]
      else ret
    let ret := if r.commits_ahead > 0 then
        ret ++ [toString r.commits_ahead ++ " commit(s) ahead"]
      else ret
    let ret := if r.commits_behind > 0 then
        ret ++ [toString r.commits_behind ++ " commit(s) behind"]
      else ret
    ret

/-- The spec-side reading of the `describe` contract: the ordered list of
the non-clean / non-zero facts — unclean-state fact, then uncommitted-count
fact, then ahead fact, then behind fact. -/
def describeFactsSpec (r : GitCheckResult) : List String :=
  (if r.state ≠ RepositoryState.Clean then
      ["unclean state " ++ r.state.debugStr] else [])
    ++ (if r.statuses.length > 0 then
      [toString r.statuses.length ++ " uncommitted change(s)"] else [])
    ++ (if r.commits_ahead > 0 then
      [toString r.commits_ahead ++ " commit(s) ahead"] else [])
    ++ (if r.commits_behind > 0 then
      [toString r.commits_behind ++ " commit(s) behind"] else [])

/-! ### Custom entries (`src/custom.rs`)

The process working directory is global mutable state; we model it by
explicit state passing: each operation receives the current directory and
returns the directory the process is left in. -/

/-- True when the string contains a NUL byte, in which case
`ffi::CString::new` fails. -/
def hasInteriorNul (s : String) : Bool :=
  s.data.contains (Char.ofNat 0)

/-- Errors a custom-entry operation can propagate. -/
inductive CustomError where
  /-- Expansion via `shellexpand::full` failed on the entry path. -/
  | expandErr (msg : String)
  /-- Changing directory (`env::set_current_dir`) to the given target failed. -/
  | chdirErr (target : String)
  /-- Construction via `ffi::CString::new` failed (NUL byte inside the command string). -/
  | nulErr
  deriving DecidableEq, Repr

/-- The ambient system capabilities used by `src/custom.rs`: shell
expansion, directory changing, and subprocess exit statuses (the
`WEXITSTATUS` of `libc::system` on a command string). -/
structure SysEnv where
  expand : String → Except String String
  chdirOk : String → Bool
  exitCode : String → Nat

/-- Struct `CustomEntry` from `src/custom.rs`. -/
structure CustomEntry where
  name : String
  path : String
  check_cmd : String
  refresh_cmd : String
  deriving DecidableEq, Repr

/-- Function `CustomEntry::check` from `src/custom.rs` lines 17-42, state-passing on
the working directory: returns the verdict (or error) and the directory the
process ends up in. -/
def CustomEntry.check (e : CustomEntry) (env : SysEnv) (cwd : String) :
    Except CustomError Bool × String :=
  match env.expand e.path with
  | .error msg => (.error (.expandErr msg), cwd)
  | .ok expanded_path =>
    -- Save current dir (`cwd`), move to the custom dir
    if env.chdirOk expanded_path then
      -- Run the check command
      if hasInteriorNul e.check_cmd then
        (.error .nulErr, expanded_path)
      else
        let command_result := env.exitCode e.check_cmd
        let res := if command_result ≠ 0 then false else true
        -- Return to original dir
        if env.chdirOk cwd then
          (.ok res, cwd)
        else
          (.error (.chdirErr cwd), expanded_path)
    else
      (.error (.chdirErr expanded_path), cwd)

/-- Function `CustomEntry::refresh` from `src/custom.rs` lines 44-71; additionally
returns the list of warnings logged. -/
def CustomEntry.refresh (e : CustomEntry) (env : SysEnv) (cwd : String) :
    Except CustomError Unit × String × List String :=
  match env.expand e.path with
  | .error msg => (.error (.expandErr msg), cwd, [])
  | .ok expanded_path =>
    if env.chdirOk expanded_path then
      if hasInteriorNul e.refresh_cmd then
        (.error .nulErr, expanded_path, [])
      else
        let command_result := env.exitCode e.refresh_cmd
        let warnings := if command_result ≠ 0 then
            [e.path ++ ": custom dir refresh command exited with code "
              ++ toString command_result]
          else []
        if env.chdirOk cwd then
          (.ok (), cwd, warnings)
        else
          (.error (.chdirErr cwd), expanded_path, warnings)
    else
      (.error (.chdirErr expanded_path), cwd, [])

/-! ### Repository evaluation (`src/git.rs`, `check_repo`) -/

/-- Errors `check_repo` can propagate, one per fallible step. -/
inductive CheckError where
  | statuses (msg : String)
  | resolve (msg : String)
  /-- Error "Failed to resolve HEAD ref": `target()` returned `None`. -/
  | headTarget
  /-- Error "Failed to get HEAD branch name": `name()` returned `None`. -/
  | headName
  /-- Error "Failed to decode remote branch name to UTF-8". -/
  | upstreamUtf8
  | refname (msg : String)
  | graph (msg : String)
  deriving DecidableEq, Repr

/-- A resolved git reference: branch flag, target object id, and name. -/
structure RefInfo where
  isBranch : Bool
  target : Option Nat
  name : Option String
  deriving DecidableEq, Repr

/-- The HEAD reference before resolution: `resolve()` may fail. -/
structure HeadInfo where
  resolveResult : Except String RefInfo
  deriving Repr

/-- The query outcomes a repository handle provides to `check_repo`,
mirroring the `git2::Repository` calls it makes. -/
structure RepoQueries where
  state : RepositoryState
  statusesResult : Except String (List Status)
  /-- Outcome of `repo.head()`; an error means no commits / unresolvable HEAD. -/
  headResult : Except String HeadInfo
  /-- Outcome of `repo.branch_upstream_name`; `Except.ok none` models a buffer that is
  not valid UTF-8, and an error means no configured upstream. -/
  branchUpstreamName : String → Except String (Option String)
  refnameToId : String → Except String Nat
  graphAheadBehind : Nat → Nat → Except String (Nat × Nat)

/-- Function `check_repo` from `src/git.rs` lines 59-138. -/
def check_repo (repo : RepoQueries) : Except CheckError GitCheckResult :=
  let state := repo.state
  match repo.statusesResult with
  | .error msg => .error (.statuses msg)
  | .ok statuses =>
    match repo.headResult with
    | .error _ =>
      -- SKIP NO HEAD (no commits in repo?)
      .ok { state, statuses := [], commits_ahead := 0, commits_behind := 0 }
    | .ok head =>
      match head.resolveResult with
      | .error msg => .error (.resolve msg)
      | .ok head_ref =>
        let aheadBehind : Except CheckError (Nat × Nat) :=
          if head_ref.isBranch then
            match head_ref.target with
            | none => .error .headTarget
            | some head_oid =>
              match head_ref.name with
              | none => .error .headName
              | some branch_name =>
                match repo.branchUpstreamName branch_name with
                | .ok remote_buf =>
                  match remote_buf with
                  | none => .error .upstreamUtf8
                  | some remote_branch_name =>
                    match repo.refnameToId remote_branch_name with
                    | .error msg => .error (.refname msg)
                    | .ok remote_oid =>
                      match repo.graphAheadBehind head_oid remote_oid with
                      | .error msg => .error (.graph msg)
                      | .ok ab => .ok ab
                | .error _ =>
                  -- SKIP NO REMOTE FOR branch
                  .ok (0, 0)
          else
            -- SKIP HEAD DETACHED
            .ok (0, 0)
        match aheadBehind with
        | .error e => .error e
        | .ok (commits_ahead, commits_behind) =>
          .ok { state, statuses, commits_ahead, commits_behind }

/-! ### Recursive repository discovery (`src/git.rs`,
`find_git_repos_recursive`) -/

/-- The filesystem queries the discoverer makes: directory test,
`Repository::discover` (a found repository is identified by a string), and
`fs::read_dir` listing direct children. -/
structure Fs where
  isDir : String → Bool
  discover : String → Option String
  readDir : String → Except String (List String)

/-- The `while let Some(cur_path) = stack.pop_front()` loop of
`find_git_repos_recursive`, with explicit fuel (`none` = fuel ran out).
The queue is FIFO: new children are appended at the back. -/
def findGitReposLoop (fs : Fs) :
    Nat → List String → List String → Option (Except String (List String))
  | _, [], found_repos => some (.ok found_repos)
  | 0, _ :: _, _ => none
  | fuel + 1, cur_path :: stack, found_repos =>
    if fs.isDir cur_path then
      match fs.discover cur_path with
      | some r =>
        -- HIT: record, do not descend
        findGitReposLoop fs fuel stack (found_repos ++ [r])
      | none =>
        -- MISS: enqueue the direct children
        match fs.readDir cur_path with
        | .error e => some (.error e)
        | .ok contents => findGitReposLoop fs fuel (stack ++ contents) found_repos
    else
      -- MISS NON-DIR: skip
      findGitReposLoop fs fuel stack found_repos

/-- Function `find_git_repos_recursive` from `src/git.rs` lines 140-168. -/
def find_git_repos_recursive (fs : Fs) (dir : String) (fuel : Nat) :
    Option (Except String (List String)) :=
  findGitReposLoop fs fuel [dir] []

/-! ### Directory resolver (`src/dir.rs`, `get_expanded_dirs`) -/

/-- Function `get_expanded_dirs` from `src/dir.rs` lines 10-32: `no_skip` decides
whether a failed expansion filters the dir out or fails the whole
operation. -/
def get_expanded_dirs (expand : String → Except String String)
    (dirs : List String) (no_skip : Bool) : Except String (List String) :=
  match dirs with
  | [] => .ok []
  | dir :: rest =>
    match expand dir with
    | .ok d =>
      match get_expanded_dirs expand rest no_skip with
      | .ok tl => .ok (d :: tl)
      | .error e => .error e
    | .error e =>
      if no_skip then
        .error (dir ++ ": Could not expand dir: " ++ e)
      else
        -- warn and skip
        get_expanded_dirs expand rest no_skip

/-! ### Top-level scan (`src/main.rs`, `visit_all_repos` and `main`) -/

/-- The loop body of `visit_all_repos` (`src/main.rs` lines 245-263),
threading the `clean` accumulator. `checkDir` stands for `check_dir`,
the per-directory evaluation; every expansion or check failure is
propagated with the `?` operator. -/
def visitLoop (expand : String → Except String String)
    (checkDir : String → Except String GitCheckResult) :
    List String → Bool → Except String Bool
  | [], clean => .ok clean
  | dir :: rest, clean =>
    match expand dir with
    | .error e => .error e
    | .ok expanded_dir =>
      match checkDir expanded_dir with
      | .error e => .error e
      | .ok check_result =>
        visitLoop expand checkDir rest (clean && check_result.is_all_good)

/-- Function `visit_all_repos` from `src/main.rs` lines 245-263: returns false if
any of the configured repos is dirty. -/
def visit_all_repos (expand : String → Except String String)
    (checkDir : String → Except String GitCheckResult)
    (dirs : List String) : Except String Bool :=
  visitLoop expand checkDir dirs true

/-- The process exit status of the top-level scan (`src/main.rs` lines
89-95): `Ok(true)` prints OK and exits 0, `Ok(false)` exits 1, and an
error propagated out of `main` also yields a non-zero (1) exit status. -/
def scanExitCode (expand : String → Except String String)
    (checkDir : String → Except String GitCheckResult)
    (dirs : List String) : Nat :=
  match visit_all_repos expand checkDir dirs with
  | .ok true => 0
  | .ok false => 1
  | .error _ => 1

/-- Spec-side predicate: the directory expands, its check succeeds, and
the result is all good. -/
def evalClean (expand : String → Except String String)
    (checkDir : String → Except String GitCheckResult) (dir : String) : Bool :=
  match expand dir with
  | .error _ => false
  | .ok expanded_dir =>
    match checkDir expanded_dir with
    | .error _ => false
    | .ok check_result => check_result.is_all_good

/-- Spec-side predicate: the directory expands and its check succeeds
(the entry could be evaluated at all). -/
def canEval (expand : String → Except String String)
    (checkDir : String → Except String GitCheckResult) (dir : String) : Bool :=
  match expand dir with
  | .error _ => false
  | .ok expanded_dir =>
    match checkDir expanded_dir with
    | .error _ => false
    | .ok _ => true

/-- Spec-side predicate: the directory was evaluated successfully and found
dirty. -/
def foundDirty (expand : String → Except String String)
    (checkDir : String → Except String GitCheckResult) (dir : String) : Bool :=
  match expand dir with
  | .error _ => false
  | .ok expanded_dir =>
    match checkDir expanded_dir with
    | .error _ => false
    | .ok check_result => !check_result.is_all_good

/-! ### The fix/retry loop (`src/command.rs` `handle_fix` lines 206-254,
identically `src/main.rs` lines 185-236) -/

/-- The external behavior surrounding one entry of the fix loop: chdir
outcome, per-attempt remediation exit codes, per-attempt re-check
outcomes, and per-prompt retry answers. -/
structure FixEnv where
  chdirOk : Bool
  exitCode : Nat → Nat
  recheck : Nat → Except String GitCheckResult
  answer : Nat → Bool

/-- What happened while fixing one entry: how many times the remediation
command ran and how many times the user was prompted. -/
structure FixOutcome where
  attempts : Nat
  prompts : Nat
  deriving DecidableEq, Repr

/-- Errors the fix loop can propagate. -/
inductive FixError where
  | chdir
  | nul
  | recheckErr (msg : String)
  deriving DecidableEq, Repr

/-- The inner `loop` of `handle_fix` for one failing dir, counting
remediation attempts and retry prompts; fuel bounds the number of
iterations (`none` = fuel ran out). -/
def fixDirLoop (cmd : String) (env : FixEnv) :
    Nat → Nat → Nat → Option (Except FixError FixOutcome)
  | 0, _, _ => none
  | fuel + 1, attempts, prompts =>
    -- Change to the directory
    if env.chdirOk then
      -- Run the command
      if hasInteriorNul cmd then
        some (.error .nul)
      else
        let _command_result := env.exitCode attempts
        -- (a non-zero exit status is only warned about)
        -- Re-run the check
        match env.recheck attempts with
        | .error e => some (.error (.recheckErr e))
        | .ok check_res =>
          -- Loop back if it is still failing and they want to retry
          if check_res.is_all_good then
            some (.ok ⟨attempts + 1, prompts⟩)
          else if env.answer prompts then
            fixDirLoop cmd env fuel (attempts + 1) (prompts + 1)
          else
            some (.ok ⟨attempts + 1, prompts + 1⟩)
    else
      some (.error .chdir)

/-- Struct `Config` from `src/config.rs` (the git set is a `BTreeSet`, iterated
in sorted order; modelled as a list). -/
structure Config where
  refresh_cmd : String
  enable_chad : Option String
  git : List String
  custom : List CustomEntry
  deriving DecidableEq, Repr

/-- The per-dir iteration of `handle_fix` over the failing dirs (indexed
environments), which never touches the configuration. -/
def fixAllDirs (cmd : String) (envs : Nat → FixEnv) (fuel : Nat) :
    Nat → Nat → Option (Except FixError (List FixOutcome))
  | _, 0 => some (.ok [])
  | idx, n + 1 =>
    match fixDirLoop cmd (envs idx) fuel 0 0 with
    | none => none
    | some (.error e) => some (.error e)
    | some (.ok o) =>
      match fixAllDirs cmd envs fuel (idx + 1) n with
      | none => none
      | some (.error e) => some (.error e)
      | some (.ok os) => some (.ok (o :: os))

/-- Function `handle_fix` from `src/command.rs` lines 184-260, restricted to its
loop over the failing dirs; the configuration is threaded through and, as
in the source, never written. -/
def handle_fix (cmd : String) (envs : Nat → FixEnv) (fuel : Nat)
    (failing_dirs : List String) (cfg : Config) :
    Option (Except FixError (List FixOutcome)) × Config :=
  (fixAllDirs cmd envs fuel 0 failing_dirs.length, cfg)

/-! ### Delete commands (`src/command.rs`, `handle_del` and
`handle_del_custom`)

Persistence (`save_cfg_from_matches`) is modelled as copying the in-memory
configuration into a `disk` slot; both handlers return
`(result, in-memory config, persisted config)`. -/

/-- Errors the delete handlers can produce via `bail!`. -/
inductive DelError where
  | notFound (which : String)
  | notConfirmed
  | emptyCustom
  deriving DecidableEq, Repr

/-- Function `handle_del` from `src/command.rs` lines 104-128: `BTreeSet::remove`
mutates first and reports presence; the config is saved only in the
confirmed branch. -/
def handle_del (dir : String) (confirm : Bool) (cfg disk : Config) :
    Except DelError Unit × Config × Config :=
  let present := cfg.git.contains dir
  let cfg := { cfg with git := cfg.git.erase dir }
  if !present then
    (.error (.notFound dir), cfg, disk)
  else if confirm then
    (.ok (), cfg, cfg)
  else
    (.error .notConfirmed, cfg, disk)

/-- Insertion into a sorted duplicate-free list of strings, as a
`BTreeMap` key insertion behaves. -/
def insertSortedUnique (s : String) : List String → List String
  | [] => [s]
  | x :: xs =>
    if s = x then x :: xs
    else if s < x then s :: x :: xs
    else x :: insertSortedUnique s xs

/-- The sorted key list of the `name2entry` `BTreeMap` built from the
custom entries. -/
def btreeKeys (names : List String) : List String :=
  names.foldl (fun acc s => insertSortedUnique s acc) []

/-- Function `handle_del_custom` from `src/command.rs` lines 130-182. `name_arg` is
the optional NAME argument; `selectIdx` is the index the interactive
`Select` returns when NAME is absent. The custom list is filtered before
the confirmation prompt; the config is saved only in the confirmed
branch. -/
def handle_del_custom (name_arg : Option String) (selectIdx : Nat)
    (confirm : Bool) (cfg disk : Config) :
    Except DelError Unit × Config × Config :=
  if cfg.custom.isEmpty then
    (.error .emptyCustom, cfg, disk)
  else
    let names := btreeKeys (cfg.custom.map (fun e => e.name))
    let deleteNamed := fun (name : String) =>
      let cfg := { cfg with
        custom := cfg.custom.filter (fun entry => entry.name != name) }
      if confirm then
        (Except.ok (), cfg, cfg)
      else
        (Except.error DelError.notConfirmed, cfg, disk)
    match name_arg with
    | some value =>
      if names.contains value then
        deleteNamed value
      else
        (.error (.notFound value), cfg, disk)
    | none =>
      deleteNamed (names.getD selectIdx "")

/-! ### Concrete fixtures used in closed instances -/

/-- A clean check result. -/
def cleanResult : GitCheckResult :=
  { state := .Clean, statuses := [], commits_ahead := 0, commits_behind := 0 }

/-- A dirty check result: two uncommitted changes, one commit behind. -/
def dirtyResult : GitCheckResult :=
  { state := .Clean, statuses := [⟨256⟩, ⟨2⟩], commits_ahead := 0,
    commits_behind := 1 }

/-- A benign system environment: expansion prepends a home prefix, chdir
always works, and only the command "false" exits non-zero. -/
def sampleEnv : SysEnv where
  expand := fun s => .ok ("/home/user/" ++ s)
  chdirOk := fun _ => true
  exitCode := fun c => if c = "false" then 1 else 0

/-- A custom entry whose commands succeed. -/
def sampleEntry : CustomEntry :=
  { name := "notes", path := "notes", check_cmd := "true",
    refresh_cmd := "true" }

/-- A custom entry whose commands exit non-zero. -/
def failEntry : CustomEntry :=
  { name := "redalert", path := "redalert", check_cmd := "false",
    refresh_cmd := "false" }

/-- A custom entry whose check command contains a NUL byte, making
`CString::new` fail after the directory change. -/
def nulEntry : CustomEntry :=
  { name := "nulled", path := "nulled", check_cmd := "a\x00b",
    refresh_cmd := "a\x00b" }

/-- Expansion with `UNDEFINED_VAR` unset: the two tilde paths expand, the
variable path fails. -/
def expandHome : String → Except String String := fun s =>
  if s = "~/valid1" then .ok "/home/user/valid1"
  else if s = "~/valid2" then .ok "/home/user/valid2"
  else .error "error looking key up: UNDEFINED_VAR"

/-- Expansion that always fails (an unset variable in every path). -/
def expandFailAll : String → Except String String :=
  fun _ => .error "error looking key up: UNDEFINED_VAR"

/-- A per-directory evaluation finding every repository clean. -/
def checkDirClean : String → Except String GitCheckResult :=
  fun _ => .ok cleanResult

/-- A repository with unresolvable HEAD (no commits). -/
def noHeadRepo : RepoQueries where
  state := .Clean
  statusesResult := .ok [⟨1⟩]
  headResult := .error "reference not found"
  branchUpstreamName := fun _ => .error "no upstream"
  refnameToId := fun _ => .error "refname not found"
  graphAheadBehind := fun _ _ => .error "not applicable"

/-- A repository with detached HEAD. -/
def detachedRepo : RepoQueries :=
  { noHeadRepo with
    headResult := Except.ok ⟨Except.ok ⟨false, some 7, none⟩⟩ }

/-- A repository on a branch with no configured upstream. -/
def noUpstreamRepo : RepoQueries :=
  { noHeadRepo with
    headResult := Except.ok ⟨Except.ok ⟨true, some 7, some "refs/heads/main"⟩⟩ }

/-- A small filesystem: a root with one repository child, one plain
directory child and one file; an extra unreadable directory. -/
def sampleFs : Fs where
  isDir := fun p =>
    p = "/root" || p = "/root/a" || p = "/root/b" || p = "/bad"
  discover := fun p => if p = "/root/a" then some "repo-a" else none
  readDir := fun p =>
    if p = "/root" then .ok ["/root/a", "/root/b", "/root/f.txt"]
    else if p = "/root/b" then .ok []
    else .error "permission denied"

/-- A fix-loop environment where the remediation command fixes the entry
on the first run. -/
def fixedEnv : FixEnv where
  chdirOk := true
  exitCode := fun _ => 0
  recheck := fun _ => .ok cleanResult
  answer := fun _ => true

/-- A fix-loop environment where the entry never becomes clean and the
user declines every retry prompt. -/
def stubbornEnv : FixEnv where
  chdirOk := true
  exitCode := fun _ => 0
  recheck := fun _ => .ok dirtyResult
  answer := fun _ => false

/-- A sample configuration. -/
def sampleCfg : Config where
  refresh_cmd := "git remote update"
  enable_chad := none
  git := ["/home/user/repo1", "/home/user/repo2"]
  custom := [{ name := "notes", path := "notes", check_cmd := "true",
               refresh_cmd := "true" }]

/-! ## Helper lemmas -/

/-- Two strings differ when an initial segment of a long-enough literal
prefix differs. -/
theorem string_append_ne_of_front (pre s t : String) (k : Nat)
    (hk : k ≤ pre.data.length) (hne : pre.data.take k ≠ t.data.take k) :
    pre ++ s ≠ t := by
  intro h
  apply hne
  have h2 := congrArg String.data h
  rw [String.data_append] at h2
  rw [← h2, List.take_append_of_le_length hk]

/-- Two strings differ when a final segment of a long-enough literal
suffix differs. -/
theorem string_append_ne_of_back (s suf t : String) (k : Nat)
    (hk : k ≤ suf.data.length)
    (hne : suf.data.reverse.take k ≠ t.data.reverse.take k) :
    s ++ suf ≠ t := by
  intro h
  apply hne
  have h2 := congrArg (fun x => x.data.reverse) h
  simp only [String.data_append, List.reverse_append] at h2
  rw [← h2, List.take_append_of_le_length (by simpa using hk)]

/-- Membership in a conditional singleton forces the element. -/
theorem mem_ite_singleton {c : Prop} [Decidable c] {f g : String}
    (h : g ∈ (if c then [f] else [])) : g = f := by
  split at h
  · simpa using h
  · simp at h

/-- A conditional push onto the back of a list, as an append. -/
theorem cond_push (c : Prop) [Decidable c] (x : List String) (f : String) :
    (if c then x ++ [f] else x) = x ++ (if c then [f] else []) := by
  split <;> simp

/-- When the result is not all good, `describe` produces exactly the
ordered fact list of the spec. -/
theorem describe_eq_factsSpec (r : GitCheckResult)
    (h : r.is_all_good = false) : r.describe = describeFactsSpec r := by
  unfold GitCheckResult.describe describeFactsSpec
  rw [h]
  by_cases h1 : r.state ≠ RepositoryState.Clean <;>
  by_cases h2 : r.statuses.length > 0 <;>
  by_cases h3 : r.commits_ahead > 0 <;>
  by_cases h4 : r.commits_behind > 0 <;>
  simp [h1, h2, h3, h4]

/-- The spec fact list is empty exactly when the result is all good. -/
theorem factsSpec_nil_iff (r : GitCheckResult) :
    describeFactsSpec r = [] ↔ r.is_all_good = true := by
  unfold describeFactsSpec GitCheckResult.is_all_good
  simp only [List.append_eq_nil, ite_eq_right_iff,
    List.cons_ne_nil, imp_false, not_not, Bool.and_eq_true,
    decide_eq_true_eq, List.isEmpty_iff, not_lt, Nat.le_zero,
    List.length_eq_zero]

/-- None of the individual facts is the string "all good". -/
theorem factsSpec_ne_allgood (r : GitCheckResult) :
    describeFactsSpec r ≠ ["all good"] := by
  intro he
  have hm : "all good" ∈ describeFactsSpec r := by
    rw [he]; exact List.mem_singleton_self _
  unfold describeFactsSpec at hm
  simp only [List.mem_append] at hm
  rcases hm with ((hm | hm) | hm) | hm
  · exact string_append_ne_of_front "unclean state " r.state.debugStr
      "all good" 8 (by decide) (by decide) (mem_ite_singleton hm).symm
  · exact string_append_ne_of_back (toString r.statuses.length)
      " uncommitted change(s)" "all good" 8 (by decide) (by decide)
      (mem_ite_singleton hm).symm
  · exact string_append_ne_of_back (toString r.commits_ahead)
      " commit(s) ahead" "all good" 8 (by decide) (by decide)
      (mem_ite_singleton hm).symm
  · exact string_append_ne_of_back (toString r.commits_behind)
      " commit(s) behind" "all good" 8 (by decide) (by decide)
      (mem_ite_singleton hm).symm

/-- With `no_skip` set, any expansion failure among the inputs makes the
whole batch fail. -/
theorem get_expanded_dirs_noskip_error (expand : String → Except String String) :
    ∀ (dirs : List String) (d m : String), d ∈ dirs → expand d = .error m →
    ∃ e, get_expanded_dirs expand dirs true = .error e := by
  intro dirs
  induction dirs with
  | nil => intro d m hd _; simp at hd
  | cons x xs ih =>
    intro d m hd hm
    unfold get_expanded_dirs
    cases hx : expand x with
    | error e => exact ⟨x ++ ": Could not expand dir: " ++ e, by simp⟩
    | ok v =>
      rcases List.mem_cons.mp hd with rfl | hmem
      · rw [hx] at hm; cases hm
      · obtain ⟨e, he⟩ := ih d m hmem hm
        rw [he]
        exact ⟨e, rfl⟩

/-- Without `no_skip`, the result is exactly the successfully expanded
entries in input order, failing entries omitted. -/
theorem get_expanded_dirs_skip_eq (expand : String → Except String String) :
    ∀ dirs : List String,
    get_expanded_dirs expand dirs false =
      .ok (dirs.filterMap (fun d => (expand d).toOption)) := by
  intro dirs
  induction dirs with
  | nil => rfl
  | cons x xs ih =>
    unfold get_expanded_dirs
    cases hx : expand x with
    | error e => simp [hx, ih, Except.toOption]
    | ok v => simp [hx, ih, Except.toOption]

/-! ## Claim theorems -/

/-- C1: For every Check Result, `is_all_good()` returns true if and only
if the repository state is clean AND the uncommitted-change count is 0 AND
`commits_ahead == 0` AND `commits_behind == 0`; for a Custom Entry,
`check()` returns true if and only if the check command exited with
status 0. -/
theorem C1_is_all_good_characterization :
    (∀ r : GitCheckResult,
      r.is_all_good = true ↔
        (r.state = RepositoryState.Clean ∧ r.statuses.length = 0
          ∧ r.commits_ahead = 0 ∧ r.commits_behind = 0))
    ∧ (∀ (e : CustomEntry) (env : SysEnv) (cwd : String) (b : Bool),
        (e.check env cwd).1 = .ok b →
        (b = true ↔ env.exitCode e.check_cmd = 0)) := by
  constructor
  · intro r
    unfold GitCheckResult.is_all_good
    simp [List.isEmpty_iff, List.length_eq_zero, and_assoc]
  · intro e env cwd b h
    unfold CustomEntry.check at h
    cases hx : env.expand e.path with
    | error m => rw [hx] at h; simp at h
    | ok p =>
      rw [hx] at h
      simp only [] at h
      by_cases h1 : env.chdirOk p = true
      · rw [if_pos h1] at h
        by_cases h2 : hasInteriorNul e.check_cmd = true
        · rw [if_pos h2] at h; simp at h
        · rw [if_neg h2] at h
          by_cases h3 : env.chdirOk cwd = true
          · rw [if_pos h3] at h
            simp only [Except.ok.injEq] at h
            subst h
            by_cases h4 : env.exitCode e.check_cmd = 0 <;> simp [h4]
          · rw [if_neg h3] at h; simp at h
      · rw [if_neg h1] at h; simp at h

/-- Witness for C1: a concrete custom entry whose check command exits 0. -/
theorem C1_witness :
    (sampleEntry.check sampleEnv "/orig").1 = .ok true
    ∧ (true = true ↔ sampleEnv.exitCode sampleEntry.check_cmd = 0) :=
  ⟨by rfl,
    C1_is_all_good_characterization.2 sampleEntry sampleEnv "/orig" true
      (by rfl)⟩

/-- C2: For every Check Result, `describe()` returns exactly
`["all good"]` if and only if `is_all_good()` is true; otherwise it
returns a non-empty list containing only the non-clean/non-zero facts, in
the fixed order: unclean-state fact, then uncommitted-count fact, then
ahead fact, then behind fact. -/
theorem C2_describe_contract (r : GitCheckResult) :
    (r.describe = ["all good"] ↔ r.is_all_good = true)
    ∧ (r.is_all_good = false →
        r.describe = describeFactsSpec r ∧ r.describe ≠ []) := by
  constructor
  · constructor
    · intro h
      cases hg : r.is_all_good with
      | true => rfl
      | false =>
        rw [describe_eq_factsSpec r hg] at h
        exact absurd h (factsSpec_ne_allgood r)
    · intro h
      unfold GitCheckResult.describe
      rw [h]
      simp
  · intro hf
    refine ⟨describe_eq_factsSpec r hf, ?_⟩
    rw [describe_eq_factsSpec r hf]
    intro hnil
    rw [factsSpec_nil_iff r] at hnil
    rw [hnil] at hf
    simp at hf

/-- Witness for C2: the dirty fixture gets the two ordered facts, not
"all good". -/
theorem C2_witness :
    dirtyResult.describe = describeFactsSpec dirtyResult
    ∧ dirtyResult.describe ≠ [] :=
  (C2_describe_contract dirtyResult).2 (by decide)

/-- C5: For every input list of path strings, if any entry fails shell
expansion then the Directory Resolver with `no_skip=true` returns an error
for the whole batch, and with `no_skip=false` returns exactly the
successfully expanded entries in input order with the failing entry
omitted; concretely, for `["~/valid1", "$UNDEFINED_VAR/x", "~/valid2"]`
with `UNDEFINED_VAR` unset, `no_skip=false` yields the two expanded valid
paths and `no_skip=true` yields an error. -/
theorem C5_directory_resolver (expand : String → Except String String)
    (dirs : List String) :
    ((∃ d ∈ dirs, ∃ m, expand d = .error m) →
      ∃ e, get_expanded_dirs expand dirs true = .error e)
    ∧ (get_expanded_dirs expand dirs false =
        .ok (dirs.filterMap (fun d => (expand d).toOption)))
    ∧ (get_expanded_dirs expandHome
        ["~/valid1", "$UNDEFINED_VAR/x", "~/valid2"] false =
        .ok ["/home/user/valid1", "/home/user/valid2"])
    ∧ (∃ e, get_expanded_dirs expandHome
        ["~/valid1", "$UNDEFINED_VAR/x", "~/valid2"] true = .error e) := by
  refine ⟨?_, get_expanded_dirs_skip_eq expand dirs, by rfl, ?_⟩
  · intro ⟨d, hd, m, hm⟩
    exact get_expanded_dirs_noskip_error expand dirs d m hd hm
  · exact ⟨"$UNDEFINED_VAR/x: Could not expand dir: "
      ++ "error looking key up: UNDEFINED_VAR", by rfl⟩

/-- Witness for C5: the concrete three-path batch with `no_skip=true`. -/
theorem C5_witness :
    ∃ e, get_expanded_dirs expandHome
      ["~/valid1", "$UNDEFINED_VAR/x", "~/valid2"] true = .error e :=
  (C5_directory_resolver expandHome
      ["~/valid1", "$UNDEFINED_VAR/x", "~/valid2"]).1
    ⟨"$UNDEFINED_VAR/x", by simp, "error looking key up: UNDEFINED_VAR",
      by rfl⟩

/-- C6: For every repository, whenever HEAD cannot be resolved (no
commits), or HEAD is detached, or the HEAD branch has no configured
upstream, evaluation succeeds (returns a valid Check Result, not an
error) with `commits_ahead == 0` and `commits_behind == 0`. The
working-tree status query is assumed to succeed (its failure is a
distinct Query Error preceding step 3 of the algorithm). -/
theorem C6_zero_ahead_behind_cases (repo : RepoQueries) (l : List Status)
    (hs : repo.statusesResult = .ok l) :
    ((∃ m, repo.headResult = .error m) →
      check_repo repo = .ok
        { state := repo.state, statuses := [], commits_ahead := 0,
          commits_behind := 0 })
    ∧ (∀ h ref, repo.headResult = .ok h → h.resolveResult = .ok ref →
        ref.isBranch = false →
        check_repo repo = .ok
          { state := repo.state, statuses := l, commits_ahead := 0,
            commits_behind := 0 })
    ∧ (∀ h ref oid nm, repo.headResult = .ok h →
        h.resolveResult = .ok ref → ref.isBranch = true →
        ref.target = some oid → ref.name = some nm →
        (∃ m, repo.branchUpstreamName nm = .error m) →
        check_repo repo = .ok
          { state := repo.state, statuses := l, commits_ahead := 0,
            commits_behind := 0 }) := by
  refine ⟨?_, ?_, ?_⟩
  · intro ⟨m, hm⟩
    unfold check_repo
    rw [hs, hm]
  · intro h ref hh hr hb
    simp [check_repo, hs, hh, hr, hb]
  · intro h ref oid nm hh hr hb ht hn ⟨m, hm⟩
    simp [check_repo, hs, hh, hr, hb, ht, hn, hm]

/-- Witness for C6: the three fixture repositories (no HEAD, detached
HEAD, branch without upstream) all evaluate successfully with zero
ahead/behind counts. -/
theorem C6_witness :
    check_repo noHeadRepo = .ok
      { state := .Clean, statuses := [], commits_ahead := 0,
        commits_behind := 0 }
    ∧ check_repo detachedRepo = .ok
      { state := .Clean, statuses := [⟨1⟩], commits_ahead := 0,
        commits_behind := 0 }
    ∧ check_repo noUpstreamRepo = .ok
      { state := .Clean, statuses := [⟨1⟩], commits_ahead := 0,
        commits_behind := 0 } :=
  ⟨(C6_zero_ahead_behind_cases noHeadRepo [⟨1⟩] rfl).1
      ⟨"reference not found", rfl⟩,
    (C6_zero_ahead_behind_cases detachedRepo [⟨1⟩] rfl).2.1
      ⟨Except.ok ⟨false, some 7, none⟩⟩ ⟨false, some 7, none⟩ rfl rfl rfl,
    (C6_zero_ahead_behind_cases noUpstreamRepo [⟨1⟩] rfl).2.2
      ⟨Except.ok ⟨true, some 7, some "refs/heads/main"⟩⟩
      ⟨true, some 7, some "refs/heads/main"⟩ 7 "refs/heads/main"
      rfl rfl rfl rfl rfl ⟨"no upstream", rfl⟩⟩

/-- C7: For every Custom Entry, a non-zero exit status of the subprocess
yields the verdict false from `check()` (an Ok result, not an error), and
for `refresh()` it is only logged as a warning and `refresh()` still
returns Ok — in neither operation is a non-zero exit propagated as an
error. -/
theorem C7_nonzero_exit_not_error (e : CustomEntry) (env : SysEnv)
    (cwd p : String)
    (hx : env.expand e.path = .ok p) (hc1 : env.chdirOk p = true)
    (hc2 : env.chdirOk cwd = true)
    (hn1 : hasInteriorNul e.check_cmd = false)
    (hn2 : hasInteriorNul e.refresh_cmd = false)
    (hz1 : env.exitCode e.check_cmd ≠ 0)
    (hz2 : env.exitCode e.refresh_cmd ≠ 0) :
    e.check env cwd = (.ok false, cwd)
    ∧ e.refresh env cwd = (.ok (), cwd,
        [e.path ++ ": custom dir refresh command exited with code "
          ++ toString (env.exitCode e.refresh_cmd)]) := by
  constructor
  · unfold CustomEntry.check
    rw [hx]
    simp [hc1, hc2, hn1, hz1]
  · unfold CustomEntry.refresh
    rw [hx]
    simp [hc1, hc2, hn2, hz2]

/-- Witness for C7: a custom entry whose commands exit 1. -/
theorem C7_witness :
    failEntry.check sampleEnv "/orig" = (.ok false, "/orig")
    ∧ failEntry.refresh sampleEnv "/orig" = (.ok (), "/orig",
        [failEntry.path ++ ": custom dir refresh command exited with code "
          ++ toString (sampleEnv.exitCode failEntry.refresh_cmd)]) :=
  C7_nonzero_exit_not_error failEntry sampleEnv "/orig"
    "/home/user/redalert" rfl rfl rfl rfl rfl
    (by decide) (by decide)

/-- C8 counterexample: for an entry whose check command contains a NUL
byte, `check()` changes into the entry directory, then propagates the
`CString::new` error without restoring the prior working directory — an
exit path that is neither a restore error nor a resolve error, yet the
working directory after the call differs from the one before. -/
theorem C8_counterexample :
    (nulEntry.check sampleEnv "/orig").1 = .error .nulErr
    ∧ (nulEntry.check sampleEnv "/orig").2 = "/home/user/nulled"
    ∧ "/home/user/nulled" ≠ "/orig" :=
  ⟨rfl, rfl, by decide⟩

/-- C8 (amended): both `check()` and `refresh()` restore the prior working
directory on success (including a failing command), on expansion error,
and on a failed change into the entry directory; the one exception besides
a failed restore is a failed command-string construction (a NUL byte in
the command), which propagates an error with the working directory left at
the expanded entry path. -/
theorem C8_cwd_restoration (e : CustomEntry) (env : SysEnv) (cwd : String) :
    ((∀ b, (e.check env cwd).1 = .ok b → (e.check env cwd).2 = cwd)
      ∧ (∀ m, (e.check env cwd).1 = .error (.expandErr m) →
          (e.check env cwd).2 = cwd)
      ∧ (∀ t, (e.check env cwd).1 = .error (.chdirErr t) → t ≠ cwd →
          (e.check env cwd).2 = cwd)
      ∧ (∀ p, env.expand e.path = .ok p →
          (e.check env cwd).1 = .error .nulErr →
          (e.check env cwd).2 = p))
    ∧ ((∀ u, (e.refresh env cwd).1 = .ok u → (e.refresh env cwd).2.1 = cwd)
      ∧ (∀ m, (e.refresh env cwd).1 = .error (.expandErr m) →
          (e.refresh env cwd).2.1 = cwd)
      ∧ (∀ t, (e.refresh env cwd).1 = .error (.chdirErr t) → t ≠ cwd →
          (e.refresh env cwd).2.1 = cwd)
      ∧ (∀ p, env.expand e.path = .ok p →
          (e.refresh env cwd).1 = .error .nulErr →
          (e.refresh env cwd).2.1 = p)) := by
  unfold CustomEntry.check CustomEntry.refresh
  cases hx : env.expand e.path with
  | error m => simp
  | ok p =>
    by_cases h1 : env.chdirOk p = true <;>
    by_cases h2 : hasInteriorNul e.check_cmd = true <;>
    by_cases h3 : hasInteriorNul e.refresh_cmd = true <;>
    by_cases h4 : env.chdirOk cwd = true <;>
    simp [h1, h2, h3, h4]

/-- Witness for C8: a successful check restores the original directory,
and the NUL-command entry is left in its expanded path. -/
theorem C8_witness :
    (sampleEntry.check sampleEnv "/orig").2 = "/orig"
    ∧ (nulEntry.check sampleEnv "/orig").2 = "/home/user/nulled" :=
  ⟨(C8_cwd_restoration sampleEntry sampleEnv "/orig").1.1 true rfl,
    (C8_cwd_restoration nulEntry sampleEnv "/orig").1.2.2.2
      "/home/user/nulled" rfl rfl⟩

/-- The discoverer loop with an accumulator prepends the accumulator to
what it would find starting empty. -/
theorem findGitReposLoop_append_acc (fs : Fs) :
    ∀ (fuel : Nat) (stack found : List String),
      findGitReposLoop fs fuel stack found =
        (findGitReposLoop fs fuel stack []).map
          (fun res => res.map (fun l => found ++ l)) := by
  intro fuel
  induction fuel with
  | zero =>
    intro stack found
    cases stack with
    | nil => simp [findGitReposLoop, Except.map]
    | cons cur rest => simp [findGitReposLoop]
  | succ n ih =>
    intro stack found
    cases stack with
    | nil => simp [findGitReposLoop, Except.map]
    | cons cur rest =>
      unfold findGitReposLoop
      by_cases hd : fs.isDir cur = true
      · cases hdis : fs.discover cur with
        | some r =>
          simp only [hd, if_true, hdis]
          rw [ih rest (found ++ [r]), ih rest ([] ++ [r])]
          cases h : findGitReposLoop fs n rest [] with
          | none => simp
          | some res => cases res <;> simp [Except.map]
        | none =>
          cases hrd : fs.readDir cur with
          | error e => simp [hd, hdis, hrd, Except.map]
          | ok contents => simp [hd, hdis, hrd, ih (rest ++ contents) found]
      · simp [hd, ih rest found]

/-- C9: For every directory tree, the recursive discoverer records each
directory where repository discovery succeeds and does not traverse that
children of that directory; for a directory where discovery fails it
enqueues exactly the direct children of the directory; non-directory
entries are skipped
without effect; and an unreadable directory aborts the entire traversal
with an error rather than being skipped. -/
theorem C9_discoverer_traversal (fs : Fs) (fuel : Nat) (cur : String)
    (rest : List String) :
    (∀ r, fs.isDir cur = true → fs.discover cur = some r →
      findGitReposLoop fs (fuel + 1) (cur :: rest) [] =
        (findGitReposLoop fs fuel rest []).map
          (fun res => res.map (fun l => r :: l)))
    ∧ (∀ contents, fs.isDir cur = true → fs.discover cur = none →
        fs.readDir cur = .ok contents →
        findGitReposLoop fs (fuel + 1) (cur :: rest) [] =
          findGitReposLoop fs fuel (rest ++ contents) [])
    ∧ (fs.isDir cur = false →
        findGitReposLoop fs (fuel + 1) (cur :: rest) [] =
          findGitReposLoop fs fuel rest [])
    ∧ (∀ e, fs.isDir cur = true → fs.discover cur = none →
        fs.readDir cur = .error e →
        findGitReposLoop fs (fuel + 1) (cur :: rest) [] =
          some (.error e)) := by
  refine ⟨?_, ?_, ?_, ?_⟩
  · intro r hd hdis
    have step : findGitReposLoop fs (fuel + 1) (cur :: rest) [] =
        findGitReposLoop fs fuel rest [r] := by
      conv_lhs => unfold findGitReposLoop
      simp [hd, hdis]
    rw [step, findGitReposLoop_append_acc fs fuel rest [r]]
    cases h : findGitReposLoop fs fuel rest [] with
    | none => simp
    | some res => cases res <;> simp [Except.map]
  · intro contents hd hdis hrd
    simp [findGitReposLoop, hd, hdis, hrd]
  · intro hd
    simp [findGitReposLoop, hd]
  · intro e hd hdis hrd
    simp [findGitReposLoop, hd, hdis, hrd]

/-- Witness for C9: on the sample filesystem, the repository directory
is recorded without its children being traversed, and the unreadable
directory aborts the traversal. -/
theorem C9_witness :
    findGitReposLoop sampleFs 2 ["/root/a", "/root/b"] [] =
      (findGitReposLoop sampleFs 1 ["/root/b"] []).map
        (fun res => res.map (fun l => "repo-a" :: l))
    ∧ findGitReposLoop sampleFs 2 ["/bad"] [] =
        some (.error "permission denied") :=
  ⟨(C9_discoverer_traversal sampleFs 1 "/root/a" ["/root/b"]).1
      "repo-a" rfl rfl,
    (C9_discoverer_traversal sampleFs 1 "/bad" []).2.2.2
      "permission denied" rfl rfl rfl⟩

/-- C3: In the fix loop, for every dirty entry: after a remediation
invocation whose re-evaluation reports `is_all_good()`, the loop leaves
the entry without ever prompting for retry; and if the re-evaluation
still reports dirty and the user declines the retry prompt, the loop
exits the entry after exactly one remediation attempt, without modifying
the configured status of the entry. -/
theorem C3_fix_retry_loop (cmd : String) (env : FixEnv) (fuel : Nat)
    (envs : Nat → FixEnv) (dirs : List String) (cfg : Config)
    (hc : env.chdirOk = true) (hn : hasInteriorNul cmd = false) :
    (∀ r, env.recheck 0 = .ok r → r.is_all_good = true →
      fixDirLoop cmd env (fuel + 1) 0 0 =
        some (.ok { attempts := 1, prompts := 0 }))
    ∧ ((∀ n, ∃ r, env.recheck n = .ok r ∧ r.is_all_good = false) →
        env.answer 0 = false →
        fixDirLoop cmd env (fuel + 1) 0 0 =
          some (.ok { attempts := 1, prompts := 1 }))
    ∧ (handle_fix cmd envs fuel dirs cfg).2 = cfg := by
  refine ⟨?_, ?_, rfl⟩
  · intro r hr hgood
    unfold fixDirLoop
    simp [hc, hn, hr, hgood]
  · intro hall hans
    obtain ⟨r, hr, hbad⟩ := hall 0
    unfold fixDirLoop
    simp [hc, hn, hr, hbad, hans]

/-- Witness for C3: an entry fixed by the first remediation run leaves
with no prompt; a never-fixed entry with a declined prompt leaves after
one attempt and one prompt; the config is untouched. -/
theorem C3_witness :
    fixDirLoop "sh" fixedEnv 1 0 0 =
      some (.ok { attempts := 1, prompts := 0 })
    ∧ fixDirLoop "sh" stubbornEnv 1 0 0 =
      some (.ok { attempts := 1, prompts := 1 })
    ∧ (handle_fix "sh" (fun _ => stubbornEnv) 1 ["/home/user/repo1"]
        sampleCfg).2 = sampleCfg :=
  ⟨(C3_fix_retry_loop "sh" fixedEnv 0 (fun _ => fixedEnv) [] sampleCfg
      rfl rfl).1 cleanResult rfl rfl,
    (C3_fix_retry_loop "sh" stubbornEnv 0 (fun _ => stubbornEnv) []
      sampleCfg rfl rfl).2.1 (fun _ => ⟨dirtyResult, rfl, rfl⟩) rfl,
    (C3_fix_retry_loop "sh" stubbornEnv 1 (fun _ => stubbornEnv)
      ["/home/user/repo1"] sampleCfg rfl rfl).2.2⟩

/-- When every directory can be evaluated, the visit loop folds the
all-good verdicts onto the accumulator. -/
theorem visitLoop_all_eval (expand : String → Except String String)
    (checkDir : String → Except String GitCheckResult) :
    ∀ (dirs : List String) (acc : Bool),
      (∀ d ∈ dirs, canEval expand checkDir d = true) →
      visitLoop expand checkDir dirs acc =
        .ok (acc && dirs.all (evalClean expand checkDir)) := by
  intro dirs
  induction dirs with
  | nil => intro acc _; simp [visitLoop]
  | cons x xs ih =>
    intro acc hall
    have hx := hall x (List.mem_cons_self x xs)
    unfold canEval at hx
    unfold visitLoop
    cases hex : expand x with
    | error e => rw [hex] at hx; simp at hx
    | ok p =>
      rw [hex] at hx
      cases hch : checkDir p with
      | error e => simp [hch] at hx
      | ok res =>
        simp only [hex, hch]
        rw [ih (acc && res.is_all_good)
          (fun d hd => hall d (List.mem_cons_of_mem _ hd))]
        simp [evalClean, hex, hch, Bool.and_assoc]

/-- If any directory cannot be evaluated, the visit loop propagates an
error. -/
theorem visitLoop_eval_error (expand : String → Except String String)
    (checkDir : String → Except String GitCheckResult) :
    ∀ (dirs : List String) (acc : Bool) (d : String), d ∈ dirs →
      canEval expand checkDir d = false →
      ∃ e, visitLoop expand checkDir dirs acc = .error e := by
  intro dirs
  induction dirs with
  | nil => intro acc d hd _; simp at hd
  | cons x xs ih =>
    intro acc d hd hbad
    unfold visitLoop
    cases hex : expand x with
    | error e => exact ⟨e, by simp [hex]⟩
    | ok p =>
      cases hch : checkDir p with
      | error e => exact ⟨e, by simp [hex, hch]⟩
      | ok res =>
        rcases List.mem_cons.mp hd with rfl | hmem
        · exfalso
          unfold canEval at hbad
          rw [hex] at hbad
          simp [hch] at hbad
        · obtain ⟨e, he⟩ := ih (acc && res.is_all_good) d hmem hbad
          exact ⟨e, by simp [hex, hch, he]⟩

/-- Evaluating clean entails being evaluable at all. -/
theorem evalClean_canEval (expand : String → Except String String)
    (checkDir : String → Except String GitCheckResult) (d : String)
    (h : evalClean expand checkDir d = true) :
    canEval expand checkDir d = true := by
  unfold evalClean at h
  unfold canEval
  cases hex : expand d with
  | error e => rw [hex] at h; simp at h
  | ok p =>
    rw [hex] at h
    cases hch : checkDir p with
    | error e => simp [hch] at h
    | ok res => simp [hex, hch]

/-- C4 (amended): the top-level scan command exits with a non-zero process
status if and only if at least one configured entry failed to expand,
failed its check, or was found dirty — regardless of the no-skip flag
(which `visit_all_repos` never consults): every evaluation failure is
propagated and turns into a non-zero exit. -/
theorem C4_scan_exit_status (expand : String → Except String String)
    (checkDir : String → Except String GitCheckResult)
    (dirs : List String) :
    (scanExitCode expand checkDir dirs = 0 ↔
      dirs.all (evalClean expand checkDir) = true)
    ∧ (scanExitCode expand checkDir dirs ≠ 0 ↔
      ∃ d ∈ dirs, evalClean expand checkDir d = false) := by
  have main : scanExitCode expand checkDir dirs = 0 ↔
      dirs.all (evalClean expand checkDir) = true := by
    constructor
    · intro h
      by_cases hall : ∀ d ∈ dirs, canEval expand checkDir d = true
      · unfold scanExitCode visit_all_repos at h
        rw [visitLoop_all_eval expand checkDir dirs true hall] at h
        simp at h
        cases hv : dirs.all (evalClean expand checkDir) with
        | true => rfl
        | false => rw [hv] at h; simp at h
      · push_neg at hall
        obtain ⟨d, hd, hbad⟩ := hall
        obtain ⟨e, he⟩ := visitLoop_eval_error expand checkDir dirs true d hd
          (by simpa using hbad)
        unfold scanExitCode visit_all_repos at h
        rw [he] at h
        simp at h
    · intro h
      have hall : ∀ d ∈ dirs, canEval expand checkDir d = true := by
        intro d hd
        exact evalClean_canEval expand checkDir d
          (by rw [List.all_eq_true] at h; exact h d hd)
      unfold scanExitCode visit_all_repos
      rw [visitLoop_all_eval expand checkDir dirs true hall, h]
      simp
  refine ⟨main, ?_⟩
  constructor
  · intro h
    have hnall : ¬ dirs.all (evalClean expand checkDir) = true :=
      fun hc => h (main.mpr hc)
    rw [List.all_eq_true] at hnall
    push_neg at hnall
    obtain ⟨d, hd, hne⟩ := hnall
    refine ⟨d, hd, ?_⟩
    cases hv : evalClean expand checkDir d with
    | false => rfl
    | true => exact absurd hv hne
  · intro ⟨d, hd, hbad⟩ hzero
    have hall := main.mp hzero
    rw [List.all_eq_true] at hall
    rw [hall d hd] at hbad
    simp at hbad

/-- C4 counterexample: a single configured entry whose path fails to
expand, with the no-skip flag unset. No entry is found dirty, yet the
scan exits 1, refuting "non-zero exit status if and only if at least one
entry was found dirty". -/
theorem C4_counterexample :
    scanExitCode expandFailAll checkDirClean ["$UNDEFINED_VAR/x"] = 1
    ∧ (["$UNDEFINED_VAR/x"].filter
        (foundDirty expandFailAll checkDirClean)) = [] :=
  ⟨rfl, rfl⟩

/-- Witness for C4: a batch whose single entry expands and checks clean
exits 0. -/
theorem C4_witness :
    scanExitCode expandHome checkDirClean ["~/valid1"] = 0 :=
  (C4_scan_exit_status expandHome checkDirClean ["~/valid1"]).1.mpr
    (by rfl)

/-- Membership in a sorted-unique insertion. -/
theorem mem_insertSortedUnique (s x : String) (l : List String) :
    x ∈ insertSortedUnique s l ↔ x = s ∨ x ∈ l := by
  induction l with
  | nil => simp [insertSortedUnique]
  | cons y ys ih =>
    unfold insertSortedUnique
    by_cases h1 : s = y
    · subst h1
      simp
    · by_cases h2 : s < y
      · simp [h1, h2]
      · simp [h1, h2, ih]
        tauto

/-- The `BTreeMap` key list contains exactly the inserted names. -/
theorem mem_btreeKeys (names : List String) (x : String) :
    x ∈ btreeKeys names ↔ x ∈ names := by
  unfold btreeKeys
  suffices hgen : ∀ (acc : List String),
      x ∈ names.foldl (fun acc s => insertSortedUnique s acc) acc ↔
        x ∈ acc ∨ x ∈ names by
    rw [hgen []]
    simp
  induction names with
  | nil => intro acc; simp
  | cons n ns ih =>
    intro acc
    simp only [List.foldl_cons, ih, mem_insertSortedUnique, List.mem_cons]
    tauto

/-- C10: For the delete commands (repository and custom entry), the
configuration file on disk is written only after the user confirms the
deletion: if the user declines the confirmation prompt, the command
returns an error and the persisted configuration is left unchanged, even
though the in-memory configuration was already mutated before the
prompt. -/
theorem C10_delete_persists_only_on_confirm :
    (∀ (dir : String) (cfg disk : Config), dir ∈ cfg.git →
      handle_del dir false cfg disk =
        (.error .notConfirmed, { cfg with git := cfg.git.erase dir }, disk)
      ∧ ({ cfg with git := cfg.git.erase dir }).git.length + 1 =
          cfg.git.length
      ∧ handle_del dir true cfg disk =
          (.ok (), { cfg with git := cfg.git.erase dir },
            { cfg with git := cfg.git.erase dir }))
    ∧ (∀ (nm : String) (selectIdx : Nat) (cfg disk : Config)
        (en : CustomEntry), en ∈ cfg.custom → en.name = nm →
      handle_del_custom (some nm) selectIdx false cfg disk =
        (.error .notConfirmed,
          { cfg with custom := cfg.custom.filter (fun e => e.name != nm) },
          disk)
      ∧ ({ cfg with
            custom := cfg.custom.filter (fun e => e.name != nm) }).custom.length
          < cfg.custom.length
      ∧ handle_del_custom (some nm) selectIdx true cfg disk =
          (.ok (),
            { cfg with custom := cfg.custom.filter (fun e => e.name != nm) },
            { cfg with
              custom := cfg.custom.filter (fun e => e.name != nm) })) := by
  constructor
  · intro dir cfg disk hmem
    have hpresent : cfg.git.contains dir = true := by
      simpa using hmem
    refine ⟨?_, ?_, ?_⟩
    · unfold handle_del
      simp [hpresent, hmem]
    · have hpos := List.length_pos.mpr (List.ne_nil_of_mem hmem)
      simp [List.length_erase_of_mem hmem]
      omega
    · unfold handle_del
      simp [hpresent, hmem]
  · intro nm selectIdx cfg disk en hen hname
    have hne : cfg.custom.isEmpty = false := by
      cases hc : cfg.custom with
      | nil => rw [hc] at hen; simp at hen
      | cons a as => rfl
    have hkeymem : nm ∈ btreeKeys (cfg.custom.map (fun e => e.name)) :=
      (mem_btreeKeys (cfg.custom.map (fun e => e.name)) nm).mpr
        (List.mem_map.mpr ⟨en, hen, hname⟩)
    have hkey : (btreeKeys (cfg.custom.map (fun e => e.name))).contains nm
        = true := by
      simpa using hkeymem
    refine ⟨?_, ?_, ?_⟩
    · unfold handle_del_custom
      simp [hne, hkey, hkeymem]
    · exact List.length_filter_lt_length_iff_exists.mpr
        ⟨en, hen, by simp [hname]⟩
    · unfold handle_del_custom
      simp [hne, hkey, hkeymem]

/-- Witness for C10: deleting a repository path and a custom entry from
the sample configuration with a declined prompt leaves the disk copy
unchanged. -/
theorem C10_witness :
    handle_del "/home/user/repo1" false sampleCfg sampleCfg =
      (.error .notConfirmed,
        { sampleCfg with git := sampleCfg.git.erase "/home/user/repo1" },
        sampleCfg)
    ∧ handle_del_custom (some "notes") 0 false sampleCfg sampleCfg =
      (.error .notConfirmed,
        { sampleCfg with
          custom := sampleCfg.custom.filter (fun e => e.name != "notes") },
        sampleCfg) :=
  ⟨(C10_delete_persists_only_on_confirm.1 "/home/user/repo1" sampleCfg
      sampleCfg (by simp [sampleCfg])).1,
    (C10_delete_persists_only_on_confirm.2 "notes" 0 sampleCfg sampleCfg
      { name := "notes", path := "notes", check_cmd := "true",
        refresh_cmd := "true" } (by simp [sampleCfg]) rfl).1⟩

end Cign
